import Mathlib

/-!
Verification of the burst polling and reconciliation core of OPCLogger.

The repository has two program variants:
* `OPCLogger.py` — batch loop in `OPCHandler.run`, merge in `write_values`,
  timestamp normalization in `parse_timestamp`, tag loading in `read_tags`.
* `DVMonOPCLogger.py` — batch loop in `main` over `chunk_list`, tag loading in
  `read_tags_file`.

Each Python function is shallowly embedded as an executable Lean definition;
raised exceptions become `Option`/pair-with-flag results, and the on-disk
tabular file becomes an explicit `Store` value threaded through the loop.
-/

namespace OPCLog

/-! ## Batch partitioner

`DVMonOPCLogger.chunk_list` (src/DVMonOPCLogger.py:189-192) and the slicing
in `OPCHandler.run` (src/OPCLogger.py:163) both compute
`[data[i : i + size] for i in range(0, len(data), size)]`.

For a positive step, `range(0, n, size)` enumerates `0, size, 2*size, ...`,
so the slices are `take size`, then `take size` of the `drop size` remainder,
and so on; `chunksAux (size - 1)` computes exactly that iteration.
For step `0`, Python's `range` raises `ValueError` (modelled as `none`); for a
negative step with `n ≥ 0`, `range(0, n, step)` is empty, so the comprehension
yields no batches at all.
-/

/-- One chunking step with chunk size `s + 1`: take the first `s + 1` elements,
recurse on the rest.  (`s + 1` keeps the recursion well-founded.) -/
def chunksAux (s : Nat) : List α → List (List α)
  | [] => []
  | x :: xs => (x :: xs.take s) :: chunksAux s (xs.drop s)
termination_by l => l.length
decreasing_by simp [List.length_drop]; omega

/-- `chunk_list` from src/DVMonOPCLogger.py:189-192 (also the batch list built
at src/OPCLogger.py:163), over an arbitrary integer chunk size as supplied by
the CLI.  `none` models the `ValueError` raised by `range(0, n, 0)`. -/
def chunk_list (data : List α) (size : Int) : Option (List (List α)) :=
  if size = 0 then none
  else if size < 0 then some []
  else some (chunksAux (size.toNat - 1) data)

/-! ## Timestamp normalizer

`parse_timestamp` (src/OPCLogger.py:60-73) is
`datetime.strptime(raw_ts, '%m/%d/%y %H:%M:%S')` followed by
`dt.strftime('%d-%m-%Y %I:%M:%S %p')`, with `ValueError` caught and the raw
string returned unchanged.

CPython's `_strptime` compiles the format to a regex whose field patterns are
  %m : 1[0-2]|0[1-9]|[1-9]        %d : 3[01]|[12]\d|0[1-9]|[1-9]
  %y : \d\d                       %H : 2[0-3]|[0-1]\d|\d
  %M : [0-5]\d|\d                 %S : 6[0-1]|[0-5]\d|\d
with literal `/` and `:` kept and whitespace in the format matching `\s+`,
and raises `ValueError` unless the regex consumes the entire input.  Each
two-digit alternative set is exactly the in-range two-digit values, so a field
parse is: take two digits when their value is in the two-digit range; else
take one digit when it satisfies the one-digit alternative.  Committing to the
two-digit read loses no matches here because every field is followed by a
separator or end of input, never by a digit, so regex backtracking from a
two-digit to a one-digit field read can never turn a failure into a success.
`\d` and `\s` are modelled over ASCII (server timestamps are ASCII).
After the regex, `datetime(...)` itself validates the calendar day against
the month and year (with `%y` mapped to 1969-2068) and rejects seconds 60/61;
that `ValueError` is caught by the same handler. -/

/-- The timestamp fields as parsed from the source string. -/
structure TS where
  month : Nat
  day : Nat
  year : Nat
  hour : Nat
  minute : Nat
  second : Nat
deriving DecidableEq

/-- Value of an ASCII digit character, `none` for non-digits (regex `\d`). -/
def digit? (c : Char) : Option Nat :=
  if c.isDigit then some (c.toNat - 48) else none

/-- One numeric field of the `_strptime` regex: a two-digit read when the
two-digit value satisfies `valid2`, else a one-digit read when the leading
digit satisfies `valid1`. -/
def parseField (valid2 : Nat → Bool) (valid1 : Nat → Bool) :
    List Char → Option (Nat × List Char)
  | c1 :: c2 :: rest =>
    match digit? c1, digit? c2 with
    | some a, some b =>
      if valid2 (10 * a + b) then some (10 * a + b, rest)
      else if valid1 a then some (a, c2 :: rest)
      else none
    | some a, none => if valid1 a then some (a, c2 :: rest) else none
    | none, _ => none
  | [c1] =>
    match digit? c1 with
    | some a => if valid1 a then some (a, []) else none
    | none => none
  | [] => none

/-- `%y`: exactly two digits. -/
def parseYear2 : List Char → Option (Nat × List Char)
  | c1 :: c2 :: rest =>
    match digit? c1, digit? c2 with
    | some a, some b => some (10 * a + b, rest)
    | _, _ => none
  | _ => none

/-- A literal character of the format. -/
def expectChar (c : Char) : List Char → Option (List Char)
  | d :: rest => if d = c then some rest else none
  | [] => none

/-- Whitespace in the format: `\s+`, one or more whitespace characters. -/
def skipWs1 : List Char → Option (List Char)
  | c :: rest =>
    if c.isWhitespace then some (rest.dropWhile Char.isWhitespace) else none
  | [] => none

/-- The regex phase of `datetime.strptime(raw, '%m/%d/%y %H:%M:%S')`:
`none` models the `ValueError` for a non-matching input.  The fields in
order: month, `/`, day, `/`, two-digit year, whitespace, hour, `:`, minute,
`:`, second, end of input. -/
def strptime_mdy_hms (cs : List Char) : Option TS :=
  (parseField (fun v => decide (1 ≤ v ∧ v ≤ 12)) (fun a => decide (1 ≤ a)) cs).bind fun mo =>
  (expectChar '/' mo.2).bind fun r1 =>
  (parseField (fun v => decide (1 ≤ v ∧ v ≤ 31)) (fun a => decide (1 ≤ a)) r1).bind fun dy =>
  (expectChar '/' dy.2).bind fun r2 =>
  (parseYear2 r2).bind fun yr =>
  (skipWs1 yr.2).bind fun r3 =>
  (parseField (fun v => decide (v ≤ 23)) (fun _ => true) r3).bind fun hr =>
  (expectChar ':' hr.2).bind fun r4 =>
  (parseField (fun v => decide (v ≤ 59)) (fun _ => true) r4).bind fun mi =>
  (expectChar ':' mi.2).bind fun r5 =>
  (parseField (fun v => decide (v ≤ 61)) (fun _ => true) r5).bind fun sc =>
  if sc.2.isEmpty then some ⟨mo.1, dy.1, yr.1, hr.1, mi.1, sc.1⟩ else none

/-- `%y` century mapping used by `_strptime`: 00-68 → 2000-2068, 69-99 → 1969-1999. -/
def year100 (y : Nat) : Nat := if y ≤ 68 then 2000 + y else 1900 + y

/-- Gregorian leap year rule, as used by `datetime`. -/
def isLeap (y : Nat) : Bool := (y % 4 = 0 && y % 100 ≠ 0) || y % 400 = 0

/-- Days in a month, as validated by the `datetime` constructor. -/
def daysInMonth (y m : Nat) : Nat :=
  if m = 2 then (if isLeap y then 29 else 28)
  else if m = 4 ∨ m = 6 ∨ m = 9 ∨ m = 11 then 30
  else 31

/-- The `datetime(...)` constructor called by `strptime`: applies the `%y`
century mapping and validates all fields, raising `ValueError` (`none`) on an
invalid calendar date or a leap second. -/
def mkDatetime (t : TS) : Option TS :=
  let yr := year100 t.year
  if 1 ≤ t.month ∧ t.month ≤ 12 ∧ 1 ≤ t.day ∧ t.day ≤ daysInMonth yr t.month
      ∧ t.hour ≤ 23 ∧ t.minute ≤ 59 ∧ t.second ≤ 59
  then some { t with year := yr } else none

/-- Two-digit zero padding, as produced by `strftime`. -/
def pad2 (n : Nat) : String := if n < 10 then "0" ++ toString n else toString n

/-- `dt.strftime('%d-%m-%Y %I:%M:%S %p')`: the display rendering
`DD-MM-YYYY hh:mm:ss AM/PM` (12-hour clock with meridiem). -/
def strftime_display (t : TS) : String :=
  let h12 := if t.hour % 12 = 0 then 12 else t.hour % 12
  let mer := if t.hour < 12 then "AM" else "PM"
  pad2 t.day ++ "-" ++ pad2 t.month ++ "-" ++ toString t.year ++ " " ++
    pad2 h12 ++ ":" ++ pad2 t.minute ++ ":" ++ pad2 t.second ++ " " ++ mer

/-- `parse_timestamp` from src/OPCLogger.py:60-73: strptime, then datetime
validation, then strftime; any `ValueError` is caught and the raw input is
returned unchanged. -/
def parse_timestamp (raw : String) : String :=
  match (strptime_mdy_hms raw.toList).bind mkDatetime with
  | some t => strftime_display t
  | none => raw

/-- Modelled from the spec: two exact digits, for the strict reading of the
source pattern. -/
def parse2strict (valid : Nat → Bool) : List Char → Option (Nat × List Char)
  | c1 :: c2 :: rest =>
    match digit? c1, digit? c2 with
    | some a, some b => if valid (10 * a + b) then some (10 * a + b, rest) else none
    | _, _ => none
  | _ => none

/-- Modelled from the spec: the strict source pattern `MM/DD/YY HH:MM:SS`
(two-digit fields, `MM` 01-12, `DD` 01-31, 24-hour `HH` 00-23, `MM`/`SS`
00-59, a single space), following the spec's words in §4.3/§8 rather than the
code.  Used only to compare the spec's claim with `parse_timestamp`. -/
def strictFields (cs : List Char) : Option TS :=
  (parse2strict (fun v => decide (1 ≤ v ∧ v ≤ 12)) cs).bind fun mo =>
  (expectChar '/' mo.2).bind fun r1 =>
  (parse2strict (fun v => decide (1 ≤ v ∧ v ≤ 31)) r1).bind fun dy =>
  (expectChar '/' dy.2).bind fun r2 =>
  (parse2strict (fun _ => true) r2).bind fun yr =>
  (expectChar ' ' yr.2).bind fun r3 =>
  (parse2strict (fun v => decide (v ≤ 23)) r3).bind fun hr =>
  (expectChar ':' hr.2).bind fun r4 =>
  (parse2strict (fun v => decide (v ≤ 59)) r4).bind fun mi =>
  (expectChar ':' mi.2).bind fun r5 =>
  (parse2strict (fun v => decide (v ≤ 59)) r5).bind fun sc =>
  if sc.2.isEmpty then some ⟨mo.1, dy.1, yr.1, hr.1, mi.1, sc.1⟩ else none

/-! ## Result merger (`write_values`, src/OPCLogger.py:75-117)

The tabular file is a list of rows keyed by the `Tag` column; the
`Value`/`Status`/`Timestamp` columns may be absent (`hasValue` etc.), and a
cell is `Option`-valued (`none` = Python `None`/empty cell).  A real persisted
file cannot carry cell contents for a column it does not have, which is the
`StoreWF` invariant.  `tag_values_map` is a Python dict, modelled by its
lookup function. -/

structure Row (α : Type) where
  tag : String
  value : Option α
  status : Option α
  timestamp : Option String
deriving DecidableEq

structure Store (α : Type) where
  hasValue : Bool
  hasStatus : Bool
  hasTimestamp : Bool
  rows : List (Row α)
deriving DecidableEq

/-- A batch's tag → (value, status, formatted timestamp) dict, by its lookup. -/
def TagValueMap (α : Type) : Type := String → Option (α × α × String)

/-- A file that exists on disk cannot have cell contents in a column it does
not have. -/
def StoreWF (s : Store α) : Prop :=
  (s.hasValue = false → ∀ r ∈ s.rows, r.value = none) ∧
  (s.hasStatus = false → ∀ r ∈ s.rows, r.status = none) ∧
  (s.hasTimestamp = false → ∀ r ∈ s.rows, r.timestamp = none)

instance [DecidableEq α] (s : Store α) : Decidable (StoreWF s) := by
  unfold StoreWF
  infer_instance

/-- Lines 94-99: `df['Value'] = None` etc. for each missing column. -/
def ensureColumns (s : Store α) : Store α :=
  { hasValue := true, hasStatus := true, hasTimestamp := true,
    rows := s.rows.map (fun r =>
      { r with
        value := if s.hasValue then r.value else none,
        status := if s.hasStatus then r.status else none,
        timestamp := if s.hasTimestamp then r.timestamp else none }) }

/-- Lines 102-108: one iteration of the row loop — overwrite the three cells
when the row's tag is a key of the dict. -/
def mergeRow (m : TagValueMap α) (r : Row α) : Row α :=
  match m r.tag with
  | some (v, st, ts) =>
    { r with value := some v, status := some st, timestamp := some ts }
  | none => r

/-- The in-memory merge of `write_values` (src/OPCLogger.py:75-117): ensure
the three columns exist, then update each row whose `Tag` is a dict key. -/
def write_values (m : TagValueMap α) (s : Store α) : Store α :=
  let s2 := ensureColumns s
  { s2 with rows := s2.rows.map (mergeRow m) }

/-- The on-disk file around a `write_values` call: `readable = false` models
a file whose read (lines 84-91) raises — unreadable or with an unsupported
extension. -/
structure FileState (α : Type) where
  readable : Bool
  content : Store α
deriving DecidableEq

/-- `write_values` as a transition on the on-disk file: the read happens
first (lines 84-91); on failure the exception propagates (as `ValueError`,
line 116-117) and the rewrite (lines 111-114) is never reached, so the file
keeps its old content.  The Bool is `true` when the call returned normally. -/
def write_values_io (m : TagValueMap α) (f : FileState α) : FileState α × Bool :=
  if f.readable then ({ f with content := write_values m f.content }, true)
  else (f, false)

/-! ## Burst poller loop (`OPCHandler.run`, src/OPCLogger.py:156-208)

Per batch: connect, `opc.read(batch)`, build `tag_values_map` (line 180-182,
timestamps through `parse_timestamp`), `write_values`, close.  A raising read
is caught at line 192: the batch's merge is skipped entirely and the loop
advances to the next batch.  The oracle `ReadOutcome` gives each batch's
server read result; the store stands for the (readable) persisted file. -/

/-- Result of one server read: the `(tag, value, status, timestamp)` tuples,
or a raised error. -/
inductive ReadOutcome (α : Type) where
  | ok (results : List (String × α × α × String))
  | error

/-- Lines 173-182: build the batch dict; a later tuple for the same tag
overwrites an earlier one, and timestamps go through `parse_timestamp`. -/
def buildMap (results : List (String × α × α × String)) : TagValueMap α :=
  results.foldl
    (fun m r => fun k =>
      if k = r.1 then some (r.2.1, r.2.2.1, parse_timestamp r.2.2.2) else m k)
    (fun _ => none)

/-- One iteration of the batch loop, as it affects the persisted store. -/
def batchStep (file : Store α) (o : ReadOutcome α) : Store α :=
  match o with
  | ReadOutcome.error => file
  | ReadOutcome.ok results => write_values (buildMap results) file

/-- The whole run over the batches' read outcomes. -/
def runBatches (file : Store α) (outs : List (ReadOutcome α)) : Store α :=
  outs.foldl batchStep file

/-! ## Process-level control flow -/

/-- Observable outcome of a process run: exit code, whether an OPC connection
was ever attempted, and whether the no-tags warning was logged. -/
structure MainResult where
  exitCode : Nat
  attemptedConnect : Bool
  warnedNoTags : Bool
deriving DecidableEq

/-- src/DVMonOPCLogger.py:213-216: after loading tags, an empty list logs a
warning and exits 1 before `connect_to_opc_server` is reached; otherwise the
run continues (abstracted as `rest`). -/
def dvmon_empty_check (tags : List String) (rest : MainResult) : MainResult :=
  if tags.isEmpty then
    { exitCode := 1, attemptedConnect := false, warnedNoTags := true }
  else rest

/-- src/OPCLogger.py:162-167 with 156-208: `run` first builds the batch list
(an exception there is uncaught, exiting non-zero before any connect); with
zero batches the while loop never runs and `main` returns normally (exit 0,
no connect, no warning); otherwise the loop body runs (abstracted as
`rest`). -/
def opclogger_run_outcome (tags : List String) (maxtags : Int)
    (rest : MainResult) : MainResult :=
  match chunk_list tags maxtags with
  | none => { exitCode := 1, attemptedConnect := false, warnedNoTags := false }
  | some batches =>
    if batches.isEmpty then
      { exitCode := 0, attemptedConnect := false, warnedNoTags := false }
    else rest

/-! ## Tag loading -/

/-- `read_tags` (src/OPCLogger.py:40-58): `df['Tag'].tolist()` — the loaded
TagList is the file's Tag column exactly, duplicates included. -/
def read_tags (col : List String) : List String := col

/-- Keep-first deduplication (one realization of polars `unique()`, whose
output order is unspecified; only the multiplicity collapse matters here). -/
def dedupFirst : List String → List String
  | [] => []
  | x :: xs => x :: (dedupFirst xs).filter (fun y => y ≠ x)

/-- Python `str.strip()`: drop whitespace from both ends. -/
def pyStrip (s : String) : String :=
  String.mk (((s.toList.dropWhile Char.isWhitespace).reverse.dropWhile
    Char.isWhitespace).reverse)

/-- `read_tags_file` (src/DVMonOPCLogger.py:129-137): the Tag column's cells
(`none` = null) are null-dropped, deduplicated by `unique()`, stringified and
stripped, and empty strings are removed. -/
def read_tags_file (cells : List (Option String)) : List String :=
  ((dedupFirst (cells.filterMap id)).map pyStrip).filter (fun t => ¬ t = "")

/-! ## Partitioner lemmas -/

theorem chunksAux_nil (s : Nat) : chunksAux s ([] : List α) = [] := by
  simp [chunksAux]

theorem chunksAux_cons (s : Nat) (x : α) (xs : List α) :
    chunksAux s (x :: xs) = (x :: xs.take s) :: chunksAux s (xs.drop s) := by
  rw [chunksAux]

theorem chunksAux_flatten (s : Nat) (l : List α) : (chunksAux s l).flatten = l := by
  induction l using chunksAux.induct s with
  | case1 => simp [chunksAux]
  | case2 x xs ih =>
    rw [chunksAux_cons]
    simp [List.flatten_cons, ih, List.take_append_drop]

theorem chunksAux_length (s : Nat) (l : List α) :
    (chunksAux s l).length = (l.length + s) / (s + 1) := by
  induction l using chunksAux.induct s with
  | case1 =>
    simp [chunksAux, Nat.div_eq_of_lt (by omega : s < s + 1)]
  | case2 x xs ih =>
    rw [chunksAux_cons]
    simp only [List.length_cons, ih, List.length_drop]
    have h2 : xs.length + 1 + s = xs.length + (s + 1) := by omega
    rw [h2, Nat.add_div_right _ (Nat.succ_pos s)]
    congr 1
    by_cases hle : xs.length ≤ s
    · rw [Nat.div_eq_of_lt (by omega : xs.length - s + s < s + 1),
        Nat.div_eq_of_lt (by omega : xs.length < s + 1)]
    · congr 1
      omega

theorem chunksAux_mem_length (s : Nat) (l : List α) (c : List α)
    (hc : c ∈ chunksAux s l) : c.length ≤ s + 1 := by
  induction l using chunksAux.induct s with
  | case1 => rw [chunksAux_nil] at hc; simp at hc
  | case2 x xs ih =>
    rw [chunksAux_cons] at hc
    rcases List.mem_cons.mp hc with h | h
    · subst h
      simp only [List.length_cons, List.length_take]
      omega
    · exact ih h

theorem chunksAux_ne_nil_of_ne_nil (s : Nat) (l : List α) (hl : l ≠ []) :
    chunksAux s l ≠ [] := by
  match l with
  | [] => exact absurd rfl hl
  | x :: xs => rw [chunksAux_cons]; simp

theorem chunksAux_dropLast_length (s : Nat) (l : List α) (c : List α)
    (hc : c ∈ (chunksAux s l).dropLast) : c.length = s + 1 := by
  induction l using chunksAux.induct s with
  | case1 => rw [chunksAux_nil] at hc; simp at hc
  | case2 x xs ih =>
    rw [chunksAux_cons] at hc
    cases hcs : chunksAux s (xs.drop s) with
    | nil => rw [hcs] at hc; simp at hc
    | cons a as =>
      rw [hcs] at hc
      rw [List.dropLast_cons₂] at hc
      rcases List.mem_cons.mp hc with h | h
      · subst h
        have hgt : s < xs.length := by
          by_contra hle
          have : xs.drop s = [] := by
            apply List.eq_nil_of_length_eq_zero
            simp [List.length_drop]; omega
          rw [this, chunksAux_nil] at hcs
          exact List.noConfusion hcs
        simp [List.length_take]
        omega
      · exact ih (hcs ▸ h)

theorem chunksAux_getLast_length (s : Nat) (l : List α) (hl : l ≠ []) :
    ∃ c, (chunksAux s l).getLast? = some c ∧
      c.length = if l.length % (s + 1) = 0 then s + 1 else l.length % (s + 1) := by
  induction l using chunksAux.induct s with
  | case1 => exact absurd rfl hl
  | case2 x xs ih =>
    rw [chunksAux_cons]
    by_cases hle : xs.length ≤ s
    · have hdrop : xs.drop s = [] := by
        apply List.eq_nil_of_length_eq_zero
        simp [List.length_drop]; omega
      rw [hdrop, chunksAux_nil]
      refine ⟨x :: xs.take s, rfl, ?_⟩
      simp only [List.length_cons, List.length_take]
      by_cases hmod : (x :: xs).length % (s + 1) = 0
      · simp only [List.length_cons] at hmod
        have hdvd : (s + 1) ∣ (xs.length + 1) := Nat.dvd_of_mod_eq_zero hmod
        have hge := Nat.le_of_dvd (by omega) hdvd
        simp only [List.length_cons, hmod, if_pos]
        omega
      · simp only [List.length_cons] at hmod ⊢
        have hlt : xs.length < s := by
          by_contra hge
          have hxe : xs.length = s := by omega
          rw [hxe, Nat.mod_self] at hmod
          exact hmod rfl
        rw [if_neg hmod, Nat.mod_eq_of_lt (by omega : xs.length + 1 < s + 1)]
        omega
    · have hne : xs.drop s ≠ [] := by
        intro hcontra
        have := congrArg List.length hcontra
        simp [List.length_drop] at this
        omega
      obtain ⟨c, hc1, hc2⟩ := ih hne
      refine ⟨c, ?_, ?_⟩
      · cases hcs : chunksAux s (xs.drop s) with
        | nil => exact absurd hcs (chunksAux_ne_nil_of_ne_nil s _ hne)
        | cons a as =>
          rw [List.getLast?_cons_cons, ← hcs]
          exact hc1
      · have hge : s + 1 ≤ (x :: xs).length := by simp; omega
        have hmodeq : (x :: xs).length % (s + 1) = (xs.drop s).length % (s + 1) := by
          rw [Nat.mod_eq_sub_mod hge, List.length_drop]
          congr 1
          simp only [List.length_cons]
          omega
        rw [hc2, hmodeq]

/-! ## Timestamp lemmas -/

theorem digit?_not_ws {c : Char} {a : Nat} (h : digit? c = some a) :
    c.isWhitespace = false := by
  unfold digit? at h
  by_cases hd : c.isDigit = true
  · cases hw : c.isWhitespace
    · rfl
    · exfalso
      simp only [Char.isWhitespace, Bool.or_eq_true, decide_eq_true_eq] at hw
      have hw2 : c = ' ' ∨ c = '\t' ∨ c = '\x0d' ∨ c = '\n' := by tauto
      rcases hw2 with h1 | h1 | h1 | h1 <;> subst h1 <;> exact absurd hd (by decide)
  · rw [if_neg hd] at h
    exact Option.noConfusion h

theorem parse2strict_eq_some {valid : Nat → Bool} {cs : List Char} {v : Nat}
    {rest : List Char} (h : parse2strict valid cs = some (v, rest)) :
    ∃ c1 c2 a b, cs = c1 :: c2 :: rest ∧ digit? c1 = some a ∧ digit? c2 = some b ∧
      v = 10 * a + b ∧ valid (10 * a + b) = true := by
  match cs with
  | [] => simp [parse2strict] at h
  | [c] => simp [parse2strict] at h
  | c1 :: c2 :: rest2 =>
    simp only [parse2strict] at h
    cases h1 : digit? c1 with
    | none => rw [h1] at h; simp at h
    | some a =>
      cases h2 : digit? c2 with
      | none => rw [h1, h2] at h; simp at h
      | some b =>
        rw [h1, h2] at h
        simp only at h
        by_cases hv : valid (10 * a + b) = true
        · rw [if_pos hv] at h
          simp only [Option.some.injEq, Prod.mk.injEq] at h
          obtain ⟨hv1, hr1⟩ := h
          subst hr1
          exact ⟨c1, c2, a, b, rfl, h1, h2, hv1.symm, hv⟩
        · rw [if_neg hv] at h
          exact Option.noConfusion h

theorem expectChar_eq_some {c : Char} {l rest : List Char}
    (h : expectChar c l = some rest) : l = c :: rest := by
  match l with
  | [] => simp [expectChar] at h
  | d :: l2 =>
    simp only [expectChar] at h
    by_cases hd : d = c
    · rw [if_pos hd] at h
      obtain rfl := Option.some.inj h
      rw [hd]
    · rw [if_neg hd] at h
      exact Option.noConfusion h

theorem expectChar_cons (c : Char) (rest : List Char) :
    expectChar c (c :: rest) = some rest := by
  simp [expectChar]

theorem parseField_two {valid2 valid1 : Nat → Bool} {c1 c2 : Char} {a b : Nat}
    (rest : List Char) (h1 : digit? c1 = some a) (h2 : digit? c2 = some b)
    (hv : valid2 (10 * a + b) = true) :
    parseField valid2 valid1 (c1 :: c2 :: rest) = some (10 * a + b, rest) := by
  simp only [parseField, h1, h2, hv, if_true]

theorem parseYear2_two {c1 c2 : Char} {a b : Nat} (rest : List Char)
    (h1 : digit? c1 = some a) (h2 : digit? c2 = some b) :
    parseYear2 (c1 :: c2 :: rest) = some (10 * a + b, rest) := by
  simp only [parseYear2, h1, h2]

theorem skipWs1_space_digit {d : Char} {a : Nat} (rest : List Char)
    (hd : digit? d = some a) :
    skipWs1 (' ' :: d :: rest) = some (d :: rest) := by
  have hsp : (' ' : Char).isWhitespace = true := by decide
  simp only [skipWs1, hsp, if_true, List.dropWhile_cons, digit?_not_ws hd,
    Bool.false_eq_true, if_false]

/-- Every string accepted by the strict source pattern is accepted by the
lenient CPython parser, with the same field values. -/
theorem strictFields_to_strptime {cs : List Char} {t : TS}
    (h : strictFields cs = some t) : strptime_mdy_hms cs = some t := by
  simp only [strictFields, Option.bind_eq_some] at h
  obtain ⟨⟨mo, cs1⟩, hp1, h⟩ := h
  obtain ⟨cs2, he1, h⟩ := h
  obtain ⟨⟨dy, cs3⟩, hp2, h⟩ := h
  obtain ⟨cs4, he2, h⟩ := h
  obtain ⟨⟨yr, cs5⟩, hp3, h⟩ := h
  obtain ⟨cs6, he3, h⟩ := h
  obtain ⟨⟨hr, cs7⟩, hp4, h⟩ := h
  obtain ⟨cs8, he4, h⟩ := h
  obtain ⟨⟨mi, cs9⟩, hp5, h⟩ := h
  obtain ⟨cs10, he5, h⟩ := h
  obtain ⟨⟨sc, cs11⟩, hp6, h⟩ := h
  dsimp only at hp1 he1 hp2 he2 hp3 he3 hp4 he4 hp5 he5 hp6 h
  obtain ⟨m1, m2, a1, b1, hcs, hd1, hd2, hmo, hv1⟩ := parse2strict_eq_some hp1
  have hcs1 := expectChar_eq_some he1
  obtain ⟨d1, d2, a2, b2, hcs2, hd3, hd4, hdy, hv2⟩ := parse2strict_eq_some hp2
  have hcs3 := expectChar_eq_some he2
  obtain ⟨y1, y2, a3, b3, hcs4, hd5, hd6, hyr, _⟩ := parse2strict_eq_some hp3
  have hcs5 := expectChar_eq_some he3
  obtain ⟨e1, e2, a4, b4, hcs6, hd7, hd8, hhr, hv4⟩ := parse2strict_eq_some hp4
  have hcs7 := expectChar_eq_some he4
  obtain ⟨n1, n2, a5, b5, hcs8, hd9, hd10, hmi, hv5⟩ := parse2strict_eq_some hp5
  have hcs9 := expectChar_eq_some he5
  obtain ⟨s1, s2, a6, b6, hcs10, hd11, hd12, hsc, hv6⟩ := parse2strict_eq_some hp6
  cases cs11 with
  | cons c cs12 => simp at h
  | nil =>
    simp only [List.isEmpty_nil, if_true, Option.some.injEq] at h
    subst h
    subst hmo hdy hyr hhr hmi hsc
    subst hcs hcs1 hcs2 hcs3 hcs4 hcs5 hcs6 hcs7 hcs8 hcs9 hcs10
    have hv6le : (10 * a6 + b6 : Nat) ≤ 59 := of_decide_eq_true hv6
    have hv6' : decide ((10 * a6 + b6 : Nat) ≤ 61) = true :=
      decide_eq_true (by omega)
    rw [strptime_mdy_hms, parseField_two _ hd1 hd2 hv1, Option.some_bind,
      expectChar_cons, Option.some_bind,
      parseField_two _ hd3 hd4 hv2, Option.some_bind,
      expectChar_cons, Option.some_bind,
      parseYear2_two _ hd5 hd6, Option.some_bind,
      skipWs1_space_digit _ hd7, Option.some_bind,
      parseField_two _ hd7 hd8 hv4, Option.some_bind,
      expectChar_cons, Option.some_bind,
      parseField_two _ hd9 hd10 hv5, Option.some_bind,
      expectChar_cons, Option.some_bind,
      parseField_two _ hd11 hd12 hv6', Option.some_bind]
    simp

/-! ## Merger lemmas -/

theorem map_id_of_forall {l : List β} {f : β → β} (h : ∀ x ∈ l, f x = x) :
    l.map f = l := by
  induction l with
  | nil => rfl
  | cons a l ih =>
    simp only [List.map_cons, h a (List.mem_cons_self a l), List.cons.injEq, true_and]
    exact ih fun x hx => h x (List.mem_cons_of_mem a hx)

theorem ensureColumns_rows_of_WF {s : Store α} (h : StoreWF s) :
    (ensureColumns s).rows = s.rows := by
  obtain ⟨h1, h2, h3⟩ := h
  unfold ensureColumns
  apply map_id_of_forall
  intro r hr
  have hv : (if s.hasValue = true then r.value else none) = r.value := by
    cases hvb : s.hasValue
    · rw [if_neg (by simp), (h1 hvb r hr).symm]
    · rw [if_pos rfl]
  have hs : (if s.hasStatus = true then r.status else none) = r.status := by
    cases hsb : s.hasStatus
    · rw [if_neg (by simp), (h2 hsb r hr).symm]
    · rw [if_pos rfl]
  have ht : (if s.hasTimestamp = true then r.timestamp else none) = r.timestamp := by
    cases htb : s.hasTimestamp
    · rw [if_neg (by simp), (h3 htb r hr).symm]
    · rw [if_pos rfl]
  rw [hv, hs, ht]

theorem ensureColumns_of_true {s : Store α} (h1 : s.hasValue = true)
    (h2 : s.hasStatus = true) (h3 : s.hasTimestamp = true) :
    ensureColumns s = s := by
  obtain ⟨hv, hs, ht, rows⟩ := s
  dsimp only at h1 h2 h3
  subst h1 h2 h3
  unfold ensureColumns
  dsimp only
  congr 1
  apply map_id_of_forall
  intro r hr
  simp

theorem mergeRow_eq_of_none {m : TagValueMap α} {r : Row α} (h : m r.tag = none) :
    mergeRow m r = r := by
  unfold mergeRow; rw [h]

theorem mergeRow_eq_of_lookup {m : TagValueMap α} {r : Row α} {v1 v2 : α}
    {v3 : String} (h : m r.tag = some (v1, v2, v3)) :
    mergeRow m r = { r with value := some v1, status := some v2, timestamp := some v3 } := by
  unfold mergeRow; rw [h]

theorem mergeRow_idem (m : TagValueMap α) (r : Row α) :
    mergeRow m (mergeRow m r) = mergeRow m r := by
  cases h : m r.tag with
  | none => rw [mergeRow_eq_of_none h, mergeRow_eq_of_none h]
  | some v =>
    obtain ⟨v1, v2, v3⟩ := v
    rw [mergeRow_eq_of_lookup h]
    have h2 : m ({ r with value := some v1, status := some v2, timestamp := some v3 } : Row α).tag = some (v1, v2, v3) := h
    rw [mergeRow_eq_of_lookup h2]

theorem write_values_rows_of_WF {m : TagValueMap α} {s : Store α} (h : StoreWF s) :
    (write_values m s).rows = s.rows.map (mergeRow m) := by
  show (ensureColumns s).rows.map (mergeRow m) = _
  rw [ensureColumns_rows_of_WF h]

/-! ## Run-loop and tag-loading lemmas -/

theorem buildMap_append_last (rs : List (String × α × α × String)) (t : String)
    (v st : α) (ts : String) :
    buildMap (rs ++ [(t, v, st, ts)]) t = some (v, st, parse_timestamp ts) := by
  unfold buildMap
  rw [List.foldl_append, List.foldl_cons, List.foldl_nil]
  simp

theorem dedupFirst_nodup (l : List String) : (dedupFirst l).Nodup := by
  induction l with
  | nil => exact List.nodup_nil
  | cons x xs ih =>
    show (x :: (dedupFirst xs).filter (fun y => y ≠ x)).Nodup
    refine List.Nodup.cons ?_ (List.Nodup.filter _ ih)
    intro hmem
    have := List.of_mem_filter hmem
    simp at this

/-! ## Claims -/

/-- C1: for every tag list of length N and every batch size B > 0, the
partitioner yields exactly ceil(N/B) batches, each of length at most B, every
batch but possibly the last of length exactly B, the last of length N mod B
(or B when B divides N), and their concatenation in order is the original tag
list. -/
theorem chunk_list_partition {α : Type} (tags : List α) (b : Int) (hb : 0 < b) :
    ∃ cs, chunk_list tags b = some cs ∧
      cs.length = (tags.length + b.toNat - 1) / b.toNat ∧
      (∀ c ∈ cs, c.length ≤ b.toNat) ∧
      (∀ c ∈ cs.dropLast, c.length = b.toNat) ∧
      (tags ≠ [] → ∃ last, cs.getLast? = some last ∧
        last.length = if tags.length % b.toNat = 0 then b.toNat
          else tags.length % b.toNat) ∧
      cs.flatten = tags := by
  have hbt : 1 ≤ b.toNat := by omega
  have hb0 : ¬ b = 0 := by omega
  have hbneg : ¬ b < 0 := by omega
  refine ⟨chunksAux (b.toNat - 1) tags, ?_, ?_, ?_, ?_, ?_, ?_⟩
  · unfold chunk_list
    rw [if_neg hb0, if_neg hbneg]
  · rw [chunksAux_length]
    congr 1 <;> omega
  · intro c hc
    have := chunksAux_mem_length (b.toNat - 1) tags c hc
    omega
  · intro c hc
    have := chunksAux_dropLast_length (b.toNat - 1) tags c hc
    omega
  · intro hne
    obtain ⟨c, hc1, hc2⟩ := chunksAux_getLast_length (b.toNat - 1) tags hne
    refine ⟨c, hc1, ?_⟩
    rw [show b.toNat - 1 + 1 = b.toNat from by omega] at hc2
    exact hc2
  · exact chunksAux_flatten _ _

/-- Witness for C1 at the spec's Scenario 1 input: tags [A,B,C], batch size 2. -/
theorem chunk_list_partition_witness :
    ∃ cs, chunk_list (["A", "B", "C"] : List String) 2 = some cs ∧
      cs.flatten = ["A", "B", "C"] := by
  obtain ⟨cs, h1, _, _, _, _, h6⟩ :=
    chunk_list_partition (["A", "B", "C"] : List String) 2 (by decide)
  exact ⟨cs, h1, h6⟩

/-- C2: a batch whose server read raises leaves the persisted store exactly
as it was (the merge for that batch is skipped entirely, src/OPCLogger.py:192-193),
and the run still processes the remaining batches: a run with an erroring
batch spliced in equals the run without it. -/
theorem read_error_batch_skipped {α : Type} (file : Store α)
    (outs1 outs2 : List (ReadOutcome α)) :
    batchStep file ReadOutcome.error = file ∧
    runBatches file (outs1 ++ ReadOutcome.error :: outs2) =
      runBatches file (outs1 ++ outs2) := by
  refine ⟨rfl, ?_⟩
  unfold runBatches
  rw [List.foldl_append, List.foldl_append, List.foldl_cons]
  rfl

/-- C3: the merge leaves every row whose Tag is not a key of the TagValueMap
unchanged — same row, hence same Value, Status and Timestamp cells
(`StoreWF` says a store cannot carry cell contents in a column it does not
have, which is true of every file actually on disk). -/
theorem write_values_frame {α : Type} (m : TagValueMap α) (s : Store α)
    (hWF : StoreWF s) (i : Nat) (r : Row α) (hr : s.rows[i]? = some r)
    (hm : m r.tag = none) :
    (write_values m s).rows[i]? = some r := by
  rw [write_values_rows_of_WF hWF, List.getElem?_map, hr]
  simp [mergeRow_eq_of_none hm]

/-- Witness for C3: a store with row B and a batch map covering only tag A. -/
theorem write_values_frame_witness :
    (write_values (buildMap [("A", (9 : Nat), 9, "t")])
        ⟨true, true, true, [⟨"B", some 1, some 2, some "x"⟩]⟩).rows[0]? =
      some ⟨"B", some 1, some 2, some "x"⟩ := by
  apply write_values_frame
  · decide
  · rfl
  · rfl

/-- C4: the merge is idempotent — merging the same TagValueMap twice yields
the same store as merging it once (the second `ensureColumns` is the identity
and re-overwriting a row with the same entry changes nothing). -/
theorem write_values_idempotent {α : Type} (m : TagValueMap α) (s : Store α) :
    write_values m (write_values m s) = write_values m s := by
  have hE : ensureColumns (write_values m s) = write_values m s :=
    ensureColumns_of_true rfl rfl rfl
  have step1 : write_values m (write_values m s) =
      { write_values m s with rows := (write_values m s).rows.map (mergeRow m) } := by
    show { ensureColumns (write_values m s) with
      rows := (ensureColumns (write_values m s)).rows.map (mergeRow m) } = _
    rw [hE]
  rw [step1]
  have hc : mergeRow m ∘ mergeRow m = mergeRow m := funext fun r => mergeRow_idem m r
  have hrows : (write_values m s).rows.map (mergeRow m) = (write_values m s).rows := by
    show ((ensureColumns s).rows.map (mergeRow m)).map (mergeRow m) =
      (ensureColumns s).rows.map (mergeRow m)
    rw [List.map_map, hc]
  rw [hrows]

/-- C5 (amended): for every input accepted by the strict source pattern
`MM/DD/YY HH:MM:SS` whose fields survive `datetime` validation (a real
calendar day), `parse_timestamp` renders the `DD-MM-YYYY hh:mm:ss AM/PM`
display form; and every input the parser pipeline rejects is returned
unchanged.  (As stated the claim is false in both directions: a
pattern-matching string with an invalid calendar date is returned unchanged,
and some non-matching strings — e.g. single-digit fields — are rendered; see
the counterexample.) -/
theorem parse_timestamp_spec (s : String) :
    (∀ f t : TS, strictFields s.toList = some f → mkDatetime f = some t →
      parse_timestamp s = strftime_display t) ∧
    ((strptime_mdy_hms s.toList).bind mkDatetime = none → parse_timestamp s = s) := by
  constructor
  · intro f t h1 h2
    unfold parse_timestamp
    rw [strictFields_to_strptime h1, Option.some_bind, h2]
  · intro h
    unfold parse_timestamp
    rw [h]

/-- Counterexample for C5: `02/30/23 10:00:00` matches the source pattern
`MM/DD/YY HH:MM:SS` but is returned unchanged (February 30 fails `datetime`
validation), and `6/24/07 17:44:43` does not match the two-digit source
pattern yet is not returned unchanged — it is rendered. -/
theorem parse_timestamp_pattern_cx :
    strictFields ("02/30/23 10:00:00").toList =
      some { month := 2, day := 30, year := 23, hour := 10, minute := 0, second := 0 } ∧
    parse_timestamp "02/30/23 10:00:00" = "02/30/23 10:00:00" ∧
    strictFields ("6/24/07 17:44:43").toList = none ∧
    parse_timestamp "6/24/07 17:44:43" = "24-06-2007 05:44:43 PM" := by
  refine ⟨by decide, by decide, by decide, by decide⟩

/-- Witness for C5 on the source's own example timestamp. -/
theorem parse_timestamp_spec_witness :
    parse_timestamp "06/24/07 17:44:43" = "24-06-2007 05:44:43 PM" := by
  have h := (parse_timestamp_spec "06/24/07 17:44:43").1
    { month := 6, day := 24, year := 7, hour := 17, minute := 44, second := 43 }
    { month := 6, day := 24, year := 2007, hour := 17, minute := 44, second := 43 }
    (by decide) (by decide)
  rw [h]
  decide

/-- C6 (amended): on a tag file with zero tag rows, the DVMonOPCLogger
variant warns and exits 1 without attempting a connection, while the
OPCLogger variant produces zero batches and exits 0, also without attempting
a connection but with no warning and a zero exit code (so the claim's
universal "exits non-zero with a warning" fails; see the counterexample). -/
theorem empty_tag_file_behavior (rest : MainResult) (b : Int) (hb : 0 < b) :
    dvmon_empty_check (read_tags_file []) rest =
      { exitCode := 1, attemptedConnect := false, warnedNoTags := true } ∧
    opclogger_run_outcome (read_tags []) b rest =
      { exitCode := 0, attemptedConnect := false, warnedNoTags := false } := by
  constructor
  · rfl
  · have hcl : chunk_list (read_tags []) b = some [] := by
      unfold chunk_list
      rw [if_neg (by omega), if_neg (by omega)]
      rw [show read_tags [] = [] from rfl, chunksAux_nil]
    unfold opclogger_run_outcome
    rw [hcl]
    rfl

/-- Counterexample for C6: the OPCLogger variant on an empty tag file (with
the default batch size 100) exits 0 with no warning — not non-zero — even
though no connection is attempted; the `rest` argument (what the loop body
would produce) is irrelevant because the loop never runs. -/
theorem opclogger_empty_tags_no_error :
    opclogger_run_outcome (read_tags []) 100
        { exitCode := 0, attemptedConnect := true, warnedNoTags := false } =
      { exitCode := 0, attemptedConnect := false, warnedNoTags := false } := by
  have hcl : chunk_list (read_tags []) 100 = some [] := by
    unfold chunk_list
    rw [if_neg (by decide), if_neg (by decide)]
    rw [show read_tags [] = [] from rfl, chunksAux_nil]
  unfold opclogger_run_outcome
  rw [hcl]
  rfl

/-- Witness for C6 (amended) at batch size 2. -/
theorem empty_tag_file_behavior_witness :
    dvmon_empty_check (read_tags_file [])
        { exitCode := 0, attemptedConnect := true, warnedNoTags := false } =
      { exitCode := 1, attemptedConnect := false, warnedNoTags := true } ∧
    opclogger_run_outcome (read_tags []) 2
        { exitCode := 0, attemptedConnect := true, warnedNoTags := false } =
      { exitCode := 0, attemptedConnect := false, warnedNoTags := false } :=
  empty_tag_file_behavior _ 2 (by decide)

/-- C7 (amended): a batch size of exactly 0 makes the partitioner raise
(`range(0, n, 0)` is a `ValueError`, modelled as `none`), but a negative
batch size does not fail at all: `range(0, n, negative)` is empty, so the
partitioner yields zero batches (so the claim's "fails for every
maxBatchSize ≤ 0" is false; see the counterexample). -/
theorem chunk_list_nonpos {α : Type} (data : List α) (b : Int) (hb : b ≤ 0) :
    chunk_list data b = if b = 0 then none else some [] := by
  unfold chunk_list
  by_cases h0 : b = 0
  · rw [if_pos h0, if_pos h0]
  · rw [if_neg h0, if_neg h0, if_pos (by omega)]

/-- Counterexample for C7: batch size −1 on a one-tag list does not fail —
it yields zero batches. -/
theorem chunk_list_neg_no_failure :
    chunk_list (["A"] : List String) (-1) = some [] ∧
    ¬ chunk_list (["A"] : List String) (-1) = none := by
  refine ⟨by decide, by decide⟩

/-- Witness for C7 (amended) at batch sizes 0 and −2. -/
theorem chunk_list_nonpos_witness :
    chunk_list (["A"] : List String) 0 = none ∧
    chunk_list (["A"] : List String) (-2) = some [] := by
  have h1 := chunk_list_nonpos (["A"] : List String) 0 (by decide)
  have h2 := chunk_list_nonpos (["A"] : List String) (-2) (by decide)
  constructor
  · simpa using h1
  · simpa using h2

/-- C8 (amended): in OPCLogger the loaded TagList is the file's Tag column
exactly (duplicates kept, `read_tags`), and in the merge map a later
duplicate's read result overwrites an earlier one's; DVMonOPCLogger's
`read_tags_file`, however, deduplicates exact tag values at load via
`unique()` (so the claim's "the core does not enforce uniqueness" fails for
that variant; see the counterexample). -/
theorem duplicates_kept_opclogger_only {α : Type} (col : List String)
    (rs : List (String × α × α × String)) (t : String) (v st : α) (ts : String)
    (l : List String) :
    read_tags col = col ∧
    buildMap (rs ++ [(t, v, st, ts)]) t = some (v, st, parse_timestamp ts) ∧
    (dedupFirst l).Nodup :=
  ⟨rfl, buildMap_append_last rs t v st ts, dedupFirst_nodup l⟩

/-- Counterexample for C8: a tag file whose Tag column holds A twice loads as
the single-element list [A] in DVMonOPCLogger — the duplicate occurrence is
not kept. -/
theorem read_tags_file_dedup_cx :
    read_tags_file [some "A", some "A"] = ["A"] := by
  decide

/-- C9: `parse_timestamp` is total over strings — for every input it returns
a string without raising: either the pipeline rejects (the caught
`ValueError`) and the input is returned unchanged, or it parses and the
rendered display string is returned. -/
theorem parse_timestamp_total (s : String) :
    parse_timestamp s = s ∨
    ∃ t : TS, (strptime_mdy_hms s.toList).bind mkDatetime = some t ∧
      parse_timestamp s = strftime_display t := by
  unfold parse_timestamp
  cases h : (strptime_mdy_hms s.toList).bind mkDatetime with
  | none => exact Or.inl rfl
  | some t => exact Or.inr ⟨t, rfl, rfl⟩

/-- C10: `write_values` is atomic on read failure — if the store file cannot
be read (or has an unsupported extension), the call raises without reaching
the rewrite, so the on-disk content is exactly what it was. -/
theorem write_values_io_read_fail {α : Type} (m : TagValueMap α)
    (f : FileState α) (h : f.readable = false) :
    write_values_io m f = (f, false) := by
  unfold write_values_io
  rw [h]
  simp

/-- Witness for C10 on an unreadable file. -/
theorem write_values_io_read_fail_witness :
    write_values_io (buildMap [("A", (1 : Nat), 1, "t")])
        ⟨false, ⟨true, true, true, []⟩⟩ =
      (⟨false, ⟨true, true, true, []⟩⟩, false) :=
  write_values_io_read_fail _ _ rfl

end OPCLog
